import Mathlib

/-!
Verification development for the cpphots spatial remapping and
overlapping-cell aggregation subsystem (`include/cpphots/layer_modifiers.h`,
`include/cpphots/run.h`).

The repository ships only the header declarations for `SuperCell`,
`SuperCellAverage` and `SerializingLayer`; their member-function bodies live
in a translation unit that is not part of the sources here.  Those operations
are therefore modelled from the specification text, as marked on each
definition.  The `process` driver of `run.h` is a header-inline template and
is translated directly from the source.
-/

namespace Cpphots

/-- Modelled from the spec: the cell-grid geometry of `SuperCell`
(`layer_modifiers.h`, lines 127-167 declare the fields; the constructor body
that fills them is not in the sources).  `width`, `height`, `K` and `o` are
the construction parameters; `wcell`/`hcell` are the derived cell counts
("ceil-based count of horizontal cells covering width with given stride",
spec §3) and `wmax`/`hmax` the maximal processing extents (declared in the
header; the spec does not constrain their value, so they are set to the
extent covered by the cell grid). -/
structure SuperCell where
  width : Nat
  height : Nat
  K : Nat
  o : Nat
  wcell : Nat
  hcell : Nat
  wmax : Nat
  hmax : Nat
deriving DecidableEq, Repr

/-- The stride between consecutive cell origins, `K - overlap` (spec §3). -/
def SuperCell.stride (g : SuperCell) : Nat := g.K - g.o

/-- Modelled from the spec: number of cells of size `K` with stride `s`
needed to cover an extent `w` (spec §3: "ceil-based count of horizontal
cells covering width with given stride"): one cell plus one more per stride
step needed to reach past `w - K`. -/
def cellCount (w K s : Nat) : Nat := (w - K + s - 1) / s + 1

/-- Modelled from the spec: the constructor `SuperCell::SuperCell`
(`layer_modifiers.h` line 100; body not in the sources).  Spec §4.2:
"Fails (construction-time contract violation) if `K == 0`, `overlap ≥ K`,
`width == 0`, or `height == 0`"; failure is modelled as `none`. -/
def SuperCell.construct (width height K overlap : Nat) : Option SuperCell :=
  if K = 0 ∨ K ≤ overlap ∨ width = 0 ∨ height = 0 then
    none
  else
    let s := K - overlap
    let wc := cellCount width K s
    let hc := cellCount height K s
    some {
      width := width
      height := height
      K := K
      o := overlap
      wcell := wc
      hcell := hc
      wmax := (wc - 1) * s + K
      hmax := (hc - 1) * s + K
    }

/-- Modelled from the spec: `SuperCell::isInCell` (`layer_modifiers.h`
line 188; body not in the sources).  Spec §4.2: "true iff the point lies
within the half-open window `[cx*stride, cx*stride + K) ×
[cy*stride, cy*stride + K)`, clipped to `[0,width) × [0,height)`"
(coordinates are unsigned, so the lower clip bound is implicit). -/
def SuperCell.isInCell (g : SuperCell) (cx cy ex ey : Nat) : Bool :=
  (decide (cx * g.stride ≤ ex) && decide (ex < cx * g.stride + g.K)
    && decide (ex < g.width))
  && (decide (cy * g.stride ≤ ey) && decide (ey < cy * g.stride + g.K)
    && decide (ey < g.height))

/-- Modelled from the spec: `SuperCell::findCells` (`layer_modifiers.h`
line 111; body not in the sources).  Spec §4.2: "returns every cell whose
window contains the point", in the order "ascending cellY, then ascending
cellX". -/
def SuperCell.findCells (g : SuperCell) (ex ey : Nat) : List (Nat × Nat) :=
  (List.range g.hcell).flatMap fun cy =>
    (List.range g.wcell).filterMap fun cx =>
      if g.isInCell cx cy ex ey then some (cx, cy) else none

/-- Modelled from the spec: the feature surface (`TimeSurfaceType`) consumed
by the averaging grid.  Spec §3: "a fixed-shape numeric array ... consumed
here only as an opaque aggregable value (supports element-wise add/divide)".
The C++ type (defined in `time_surface.h`, not among the sources) uses
floating point; exact rationals model the exact-arithmetic reading. -/
def TimeSurfaceType : Type := Nat → Nat → ℚ

/-- Per-cell accumulator state, translated from `SuperCellAverage::CellMem`
(`layer_modifiers.h` lines 223-226): a running-mean surface and a count. -/
structure CellMem where
  ts : TimeSurfaceType
  count : Nat

/-- A freshly constructed accumulator: zero surface, zero contributions
(spec §3: "all accumulators are created zero/empty at construction"). -/
def CellMem.init : CellMem :=
  { ts := fun _ _ => 0, count := 0 }

/-- Modelled from the spec: the accumulator update performed by
`SuperCellAverage::averageTS` on the targeted cell (`layer_modifiers.h`
line 219; body not in the sources).  Spec §4.3: "if `count == 0`, set
`runningMean := featureSurface`; else `runningMean := runningMean +
(featureSurface - runningMean) / (count + 1)`; then `count += 1`."  All
surface arithmetic is element-wise. -/
def averageStep (mem : CellMem) (v : TimeSurfaceType) : CellMem :=
  if mem.count = 0 then
    { ts := v, count := 1 }
  else
    { ts := fun i j => mem.ts i j + (v i j - mem.ts i j) / (mem.count + 1)
      count := mem.count + 1 }

/-- The accumulator grid `SuperCellAverage` (`layer_modifiers.h` lines
198-230): a `SuperCell` geometry plus one `CellMem` per cell.  The C++
`std::vector<std::vector<CellMem>>` is modelled as a function of the cell
coordinates (out-of-range access is a contract violation per spec §4.3, so
behavior there does not matter to any claim). -/
structure SuperCellAverage where
  geom : SuperCell
  cells : Nat → Nat → CellMem

/-- Modelled from the spec: the `SuperCellAverage` constructor
(`layer_modifiers.h` line 209; body not in the sources).  Spec §4.3: "same
parameters as Cell Grid; allocates a `wcell × hcell` grid of empty
accumulators (`count = 0`)". -/
def SuperCellAverage.construct (width height K overlap : Nat) :
    Option SuperCellAverage :=
  (SuperCell.construct width height K overlap).map fun g =>
    { geom := g, cells := fun _ _ => CellMem.init }

/-- Modelled from the spec: `SuperCellAverage::averageTS`
(`layer_modifiers.h` line 219; body not in the sources).  Updates the
accumulator at `(cx, cy)` with `averageStep` and returns the post-update
running mean (spec §4.3) together with the new grid state; "mutates only
the single targeted accumulator" (spec §4.3). -/
def SuperCellAverage.averageTS (a : SuperCellAverage) (v : TimeSurfaceType)
    (cx cy : Nat) : TimeSurfaceType × SuperCellAverage :=
  let mem := averageStep (a.cells cx cy) v
  (mem.ts,
    { a with cells := fun x y => if x = cx ∧ y = cy then mem else a.cells x y })

/-- Repeated `averageTS` calls on the same cell, keeping the grid state. -/
def runAverage (a : SuperCellAverage) (cx cy : Nat)
    (vs : List TimeSurfaceType) : SuperCellAverage :=
  vs.foldl (fun st v => (st.averageTS v cx cy).2) a

/-- Scalar (single array element) form of one `averageStep` update: state is
(running mean, count). -/
def stepQ (s : ℚ) (n : Nat) (v : ℚ) : ℚ × Nat :=
  if n = 0 then (v, 1) else (s + (v - s) / (n + 1), n + 1)

/-- Scalar form of feeding a whole list of contributions. -/
def feedQ (s : ℚ) (n : Nat) : List ℚ → ℚ × Nat
  | [] => (s, n)
  | v :: vs => feedQ (stepQ s n v).1 (stepQ s n v).2 vs

/-- Feeding a list of contributions to one accumulator. -/
def feedCell (mem : CellMem) (vs : List TimeSurfaceType) : CellMem :=
  vs.foldl averageStep mem

/-- Modelled from the spec: the event value type (spec §3: "immutable value
`{ t: timestamp, x: coordinate, y: coordinate, p: channel/aux field }`").
The C++ struct lives in a header not among the sources; the spec does not
fix field widths, so fields are unbounded naturals. -/
structure event where
  t : Nat
  x : Nat
  y : Nat
  p : Nat
deriving DecidableEq, Repr

/-- The `SerializingLayer` remapper (`layer_modifiers.h` lines 55-79): its
state is the context size. -/
structure SerializingLayer where
  w : Nat
  h : Nat
deriving DecidableEq, Repr

/-- Modelled from the spec: the `SerializingLayer` constructor
(`layer_modifiers.h` line 65; body not in the sources).  Spec §4.1:
"Construction requires `width > 0` and `height > 0`"; rejection is
modelled as `none`. -/
def SerializingLayer.construct (width height : Nat) :
    Option SerializingLayer :=
  if width = 0 ∨ height = 0 then none else some { w := width, h := height }

/-- Modelled from the spec: `SerializingLayer::remapEvent`
(`layer_modifiers.h` line 67; body not in the sources).  Spec §4.1:
"produces `{t, width*height*clusterID + width*y + x, 0, 0}`". -/
def SerializingLayer.remapEvent (l : SerializingLayer) (ev : event)
    (k : Nat) : event :=
  { t := ev.t, x := l.w * l.h * k + l.w * ev.y + ev.x, y := 0, p := 0 }

/-- Translated from the source: the generic driver `process`
(`run.h` lines 35-48).  A processor is modelled by its state type `S`, a
`reset` function and a `step` function returning the new state and the
emitted events; the C++ in-place mutation becomes explicit state passing.
The driver resets the processor, then folds over the events, concatenating
the emitted event lists. -/
def process {S Ev : Type} (reset : S → S) (step : S → Ev → Bool → S × List Ev)
    (processor : S) (events : List Ev) (skip : Bool) : S × List Ev :=
  let s0 := reset processor
  events.foldl
    (fun acc ev =>
      let nev := step acc.1 ev skip
      (nev.1, acc.2 ++ nev.2))
    (s0, [])

/-- A call made by the driver on the processor: either `reset()` or
`process(ev, skip_check)`. -/
inductive PCall (Ev : Type) where
  | reset : PCall Ev
  | processEvent (ev : Ev) (skip : Bool) : PCall Ev
deriving DecidableEq

/-- Translated from the source: `process` (`run.h` lines 35-48) instrumented
with the trace of calls it makes on the processor, in order.  The computed
result is the same as `process`; the trace records the initial `reset()`
and one `process(ev, skip_check)` call per event. -/
def processTraced {S Ev : Type} (reset : S → S)
    (step : S → Ev → Bool → S × List Ev) (processor : S) (events : List Ev)
    (skip : Bool) : (S × List Ev) × List (PCall Ev) :=
  let s0 := reset processor
  events.foldl
    (fun acc ev =>
      let nev := step acc.1.1 ev skip
      ((nev.1, acc.1.2 ++ nev.2), acc.2 ++ [PCall.processEvent ev skip]))
    ((s0, []), [PCall.reset])

/-- Reference description of the driver's output: the concatenation, in
input order, of the event lists emitted by each `step` call, threading the
processor state from the given starting state. -/
def emitted {S Ev : Type} (step : S → Ev → Bool → S × List Ev) (skip : Bool) :
    S → List Ev → List Ev
  | _, [] => []
  | s, ev :: evs => (step s ev skip).2 ++ emitted step skip (step s ev skip).1 evs

/-- The grid of the spec's concrete scenario:
`width=10, height=10, K=4, overlap=2` (stride 2, four cells per axis). -/
def grid1010 : SuperCell :=
  { width := 10, height := 10, K := 4, o := 2, wcell := 4, hcell := 4,
    wmax := 10, hmax := 10 }

/-- A non-overlapping grid: `width=10, height=10, K=4, overlap=0`
(stride 4, three cells per axis). -/
def grid1040 : SuperCell :=
  { width := 10, height := 10, K := 4, o := 0, wcell := 3, hcell := 3,
    wmax := 12, hmax := 12 }

/-- A freshly constructed averaging grid over `grid1010`. -/
def avgGrid : SuperCellAverage :=
  { geom := grid1010, cells := fun _ _ => CellMem.init }

/-- Membership in `findCells` is exactly: in-range cell indices whose window
contains the point. -/
theorem mem_findCells_iff (g : SuperCell) (ex ey cx cy : Nat) :
    (cx, cy) ∈ g.findCells ex ey ↔
      cx < g.wcell ∧ cy < g.hcell ∧ g.isInCell cx cy ex ey = true := by
  simp only [SuperCell.findCells, List.mem_flatMap, List.mem_filterMap,
    List.mem_range]
  constructor
  · rintro ⟨cy', hcy', cx', hcx', hif⟩
    by_cases h : g.isInCell cx' cy' ex ey = true
    · simp only [h, if_true, Option.some.injEq, Prod.mk.injEq] at hif
      obtain ⟨rfl, rfl⟩ := hif
      exact ⟨hcx', hcy', h⟩
    · simp [h] at hif
  · rintro ⟨hcx, hcy, hin⟩
    exact ⟨cy, hcy, cx, hcx, by simp [hin]⟩

/-- Unfolding of the `isInCell` boolean into the six clipped-window
inequalities. -/
theorem isInCell_iff (g : SuperCell) (cx cy ex ey : Nat) :
    g.isInCell cx cy ex ey = true ↔
      cx * g.stride ≤ ex ∧ ex < cx * g.stride + g.K ∧ ex < g.width ∧
        cy * g.stride ≤ ey ∧ ey < cy * g.stride + g.K ∧ ey < g.height := by
  simp [SuperCell.isInCell, and_assoc]

/-- What a successful construction says about the parameters and the
resulting geometry record. -/
theorem construct_fields {w h K o : Nat} {g : SuperCell}
    (hg : SuperCell.construct w h K o = some g) :
    0 < K ∧ o < K ∧ 0 < w ∧ 0 < h ∧ g.width = w ∧ g.height = h ∧
      g.K = K ∧ g.o = o ∧ g.wcell = cellCount w K (K - o) ∧
      g.hcell = cellCount h K (K - o) := by
  unfold SuperCell.construct at hg
  split at hg
  · exact absurd hg (by simp)
  · next hcond =>
    push_neg at hcond
    obtain ⟨hK, hoK, hw, hh⟩ := hcond
    obtain rfl := Option.some.injEq _ _ ▸ hg
    refine ⟨Nat.pos_of_ne_zero hK, hoK, Nat.pos_of_ne_zero hw,
      Nat.pos_of_ne_zero hh, rfl, rfl, rfl, rfl, rfl, rfl⟩

/-- One-dimensional coverage: with `K ≤ w` every in-range coordinate lies in
the window of some in-range cell index. -/
theorem coverage1D {w K o : Nat} (ho : o < K) (hKw : K ≤ w)
    {e : Nat} (he : e < w) :
    ∃ c, c < cellCount w K (K - o) ∧ c * (K - o) ≤ e ∧ e < c * (K - o) + K := by
  have hs : 0 < K - o := by omega
  have hn1 : 1 ≤ cellCount w K (K - o) := Nat.le_add_left 1 _
  by_cases hc : e / (K - o) ≤ cellCount w K (K - o) - 1
  · refine ⟨e / (K - o), by omega, Nat.div_mul_le_self e (K - o), ?_⟩
    have h1 : e < e / (K - o) * (K - o) + (K - o) := Nat.lt_div_mul_add hs
    omega
  · refine ⟨cellCount w K (K - o) - 1, by omega, ?_, ?_⟩
    · exact (Nat.mul_le_mul_right _ (by omega)).trans
        (Nat.div_mul_le_self e (K - o))
    · have hq : cellCount w K (K - o) - 1 = (w - K + (K - o) - 1) / (K - o) := by
        simp [cellCount]
      rw [hq]
      have h1 : w - K + (K - o) - 1 <
          (w - K + (K - o) - 1) / (K - o) * (K - o) + (K - o) :=
        Nat.lt_div_mul_add hs
      omega

/-- Distinctness: `findCells` never lists the same cell twice. -/
theorem findCells_nodup (g : SuperCell) (ex ey : Nat) :
    (g.findCells ex ey).Nodup := by
  unfold SuperCell.findCells
  rw [List.nodup_flatMap]
  constructor
  · intro cy _
    refine List.Nodup.filterMap ?_ (List.nodup_range _)
    intro a a' b hb hb'
    by_cases ha : g.isInCell a cy ex ey = true
    · by_cases ha' : g.isInCell a' cy ex ey = true
      · simp only [ha, ha', if_true, Option.mem_def, Option.some.injEq] at hb hb'
        rw [← hb] at hb'
        exact (((Prod.mk.injEq _ _ _ _).mp hb').1).symm
      · simp [ha'] at hb'
    · simp [ha] at hb
  · refine (List.pairwise_lt_range _).imp ?_
    intro cy cy' hlt b hb hb'
    simp only [Function.onFun, List.mem_filterMap, List.mem_range] at hb hb'
    obtain ⟨a, _, hab⟩ := hb
    obtain ⟨a', _, hab'⟩ := hb'
    by_cases ha : g.isInCell a cy ex ey = true
    · by_cases ha' : g.isInCell a' cy' ex ey = true
      · simp only [ha, ha', if_true, Option.some.injEq] at hab hab'
        rw [← hab] at hab'
        have := (Prod.mk.injEq _ _ _ _ ▸ hab').2
        omega
      · simp [ha'] at hab'
    · simp [ha] at hab

/-- A duplicate-free list whose members are all equal to one of them is the
singleton of that element. -/
theorem nodup_eq_singleton {α : Type} {l : List α} {a : α} (h1 : a ∈ l)
    (h2 : ∀ b ∈ l, b = a) (h3 : l.Nodup) : l = [a] := by
  induction l with
  | nil => cases h1
  | cons b t ih =>
    have hba : b = a := h2 b (List.mem_cons_self b t)
    subst hba
    have ht : t = [] := by
      cases t with
      | nil => rfl
      | cons c t' =>
        have hc : c = b := h2 c (by simp)
        subst hc
        exact absurd (List.Nodup.not_mem h3) (by simp)
    simp [ht]

/-- With stride equal to the cell size, the cell index of a coordinate is in
range. -/
theorem div_lt_cellCount {w K : Nat} (hK : 0 < K) (hw : 0 < w) {e : Nat}
    (he : e < w) : e / K < cellCount w K K := by
  by_cases hKw : K ≤ w
  · have h1 : w - K + K - 1 = w - 1 := by omega
    unfold cellCount
    rw [h1]
    have h2 : e / K ≤ (w - 1) / K := Nat.div_le_div_right (by omega)
    omega
  · have h2 : e / K = 0 := Nat.div_eq_of_lt (by omega)
    unfold cellCount
    rw [h2]
    exact Nat.succ_pos _

/-- Closed form of the scalar fold for a strictly positive starting count:
the state is always (mean of everything seen, number seen). -/
theorem feedQ_spec (vs : List ℚ) (s : ℚ) (n : Nat) (hn : n ≠ 0) :
    feedQ s n vs = ((s * n + vs.sum) / (n + vs.length), n + vs.length) := by
  induction vs generalizing s n with
  | nil =>
    have hn' : (n : ℚ) ≠ 0 := Nat.cast_ne_zero.mpr hn
    simp [feedQ, mul_div_assoc, div_self hn']
  | cons v tl ih =>
    have hn1 : (n : ℚ) + 1 ≠ 0 := by positivity
    simp only [feedQ, stepQ, if_neg hn]
    rw [ih _ _ (Nat.succ_ne_zero n)]
    rw [Prod.mk.injEq]
    refine ⟨?_, by simp; omega⟩
    have hlen : ((n + 1 : Nat) : ℚ) = (n : ℚ) + 1 := by push_cast; ring
    rw [List.sum_cons, List.length_cons, hlen]
    have hnum : (s + (v - s) / ((n : ℚ) + 1)) * ((n : ℚ) + 1) = s * n + v := by
      field_simp
      ring
    rw [hnum]
    push_cast
    ring_nf

/-- Closed form of the scalar fold from a fresh accumulator: the result is
the plain mean of the contributions. -/
theorem feedQ_zero (s : ℚ) (l : List ℚ) (hl : l ≠ []) :
    feedQ s 0 l = (l.sum / l.length, l.length) := by
  cases l with
  | nil => exact absurd rfl hl
  | cons v vs =>
    have h0 : feedQ s 0 (v :: vs) = feedQ v 1 vs := by
      simp [feedQ, stepQ]
    rw [h0, feedQ_spec vs v 1 one_ne_zero]
    rw [Prod.mk.injEq]
    refine ⟨?_, by simp; omega⟩
    rw [List.sum_cons, List.length_cons]
    push_cast
    ring_nf

/-- The accumulator update acts element-wise: evaluating the fold at one
array index is the scalar fold of the evaluated contributions. -/
theorem feedCell_eval (vs : List TimeSurfaceType) (mem : CellMem)
    (i j : Nat) :
    ((feedCell mem vs).ts i j, (feedCell mem vs).count)
      = feedQ (mem.ts i j) mem.count (vs.map fun v => v i j) := by
  induction vs generalizing mem with
  | nil => rfl
  | cons v tl ih =>
    have hstep :
        ((averageStep mem v).ts i j, (averageStep mem v).count)
          = stepQ (mem.ts i j) mem.count (v i j) := by
      by_cases h0 : mem.count = 0
      · simp [averageStep, stepQ, h0]
      · simp [averageStep, stepQ, h0]
    simp only [feedCell, List.foldl_cons, List.map_cons, feedQ]
    rw [← hstep]
    exact ih (averageStep mem v)

/-- Repeated `averageTS` calls on a cell act on its accumulator by
`feedCell`. -/
theorem runAverage_cells_self (a : SuperCellAverage) (cx cy : Nat)
    (vs : List TimeSurfaceType) :
    (runAverage a cx cy vs).cells cx cy = feedCell (a.cells cx cy) vs := by
  induction vs generalizing a with
  | nil => rfl
  | cons v tl ih =>
    simp only [runAverage, List.foldl_cons, feedCell] at ih ⊢
    rw [ih]
    congr 1
    simp [SuperCellAverage.averageTS]

/-- Appending one more contribution to a run of `averageTS` calls. -/
theorem runAverage_append (a : SuperCellAverage) (cx cy : Nat)
    (vs : List TimeSurfaceType) (v : TimeSurfaceType) :
    runAverage a cx cy (vs ++ [v])
      = ((runAverage a cx cy vs).averageTS v cx cy).2 := by
  simp [runAverage, List.foldl_append]

/-- What a successful `SuperCellAverage` construction says: the geometry is
the constructed `SuperCell` and every accumulator starts empty. -/
theorem constructAvg_fields {w h K o : Nat} {a : SuperCellAverage}
    (ha : SuperCellAverage.construct w h K o = some a) :
    SuperCell.construct w h K o = some a.geom ∧
      a.cells = fun _ _ => CellMem.init := by
  unfold SuperCellAverage.construct at ha
  cases hg : SuperCell.construct w h K o with
  | none => rw [hg] at ha; simp at ha
  | some g =>
    rw [hg] at ha
    simp only [Option.map_some', Option.some.injEq] at ha
    subst ha
    exact ⟨hg ▸ rfl, rfl⟩

/-- The value returned by `averageTS` is the post-update running mean stored
at the targeted cell. -/
theorem averageTS_returns_cell (st : SuperCellAverage) (u : TimeSurfaceType)
    (cx cy : Nat) :
    (st.averageTS u cx cy).1 = ((st.averageTS u cx cy).2.cells cx cy).ts := by
  simp [SuperCellAverage.averageTS]

/-- The trace accumulator of the instrumented driver is only appended to. -/
theorem processTraced_foldl_trace {S Ev : Type}
    (step : S → Ev → Bool → S × List Ev) (skip : Bool) (events : List Ev)
    (acc : (S × List Ev) × List (PCall Ev)) :
    (events.foldl
        (fun acc ev =>
          let nev := step acc.1.1 ev skip
          ((nev.1, acc.1.2 ++ nev.2), acc.2 ++ [PCall.processEvent ev skip]))
        acc).2
      = acc.2 ++ events.map (fun ev => PCall.processEvent ev skip) := by
  induction events generalizing acc with
  | nil => simp
  | cons ev tl ih => simp [ih]

/-- The computed component of the instrumented driver agrees with the plain
driver, whatever the accumulators hold. -/
theorem processTraced_foldl_fst {S Ev : Type}
    (step : S → Ev → Bool → S × List Ev) (skip : Bool) (events : List Ev)
    (p : S × List Ev) (tr : List (PCall Ev)) :
    (events.foldl
        (fun acc ev =>
          let nev := step acc.1.1 ev skip
          ((nev.1, acc.1.2 ++ nev.2), acc.2 ++ [PCall.processEvent ev skip]))
        (p, tr)).1
      = events.foldl
          (fun acc ev =>
            let nev := step acc.1 ev skip
            (nev.1, acc.2 ++ nev.2))
          p := by
  induction events generalizing p tr with
  | nil => rfl
  | cons ev tl ih => exact ih _ _

/-- The output accumulator of the driver fold is only appended to, and what
is appended is `emitted`. -/
theorem process_foldl_out {S Ev : Type}
    (step : S → Ev → Bool → S × List Ev) (skip : Bool) (events : List Ev)
    (s0 : S) (out : List Ev) :
    (events.foldl
        (fun acc ev =>
          let nev := step acc.1 ev skip
          (nev.1, acc.2 ++ nev.2))
        (s0, out)).2
      = out ++ emitted step skip s0 events := by
  induction events generalizing s0 out with
  | nil => simp [emitted]
  | cons ev tl ih => simp [emitted, ih]

/-- C1: for every grid obtained from a successful construction (so
`width, height, K > 0` and `overlap < K`) with `K ≤ min(width, height)`,
and every point `(ex, ey)` with `ex < width` and `ey < height`, the
sequence returned by `findCells ex ey` contains at least one cell
coordinate pair. -/
theorem findCells_covers (w h K o : Nat) (g : SuperCell)
    (hg : SuperCell.construct w h K o = some g) (hKw : K ≤ w) (hKh : K ≤ h)
    (ex ey : Nat) (hex : ex < w) (hey : ey < h) :
    g.findCells ex ey ≠ [] := by
  obtain ⟨hK, hO, hwpos, hhpos, hW, hH, hKf, hOf, hwc, hhc⟩ :=
    construct_fields hg
  obtain ⟨cx, hcx, hcx1, hcx2⟩ := coverage1D hO hKw hex
  obtain ⟨cy, hcy, hcy1, hcy2⟩ := coverage1D hO hKh hey
  refine List.ne_nil_of_mem (a := (cx, cy)) ?_
  rw [mem_findCells_iff]
  refine ⟨by rw [hwc]; exact hcx, by rw [hhc]; exact hcy, ?_⟩
  rw [isInCell_iff]
  simp only [SuperCell.stride, hW, hH, hKf, hOf]
  exact ⟨hcx1, hcx2, hex, hcy1, hcy2, hey⟩

/-- Witness for C1 at the spec's concrete configuration
`width=10, height=10, K=4, overlap=2`, point `(3, 9)`. -/
theorem findCells_covers_witness :
    SuperCell.construct 10 10 4 2 = some grid1010 ∧ (4 ≤ 10 ∧ 3 < 10 ∧ 9 < 10) ∧
      grid1010.findCells 3 9 ≠ [] :=
  ⟨by decide, by decide,
    findCells_covers 10 10 4 2 grid1010 (by decide) (by decide) (by decide)
      3 9 (by decide) (by decide)⟩

/-- C3: for every constructed grid, membership in `findCells ex ey` is
exactly `isInCell` over the in-range cell indices; and in the concrete
scenario `width=10, height=10, K=4, overlap=2` the point `(3, 3)` is
reported as belonging to cells `(0,0)` and `(1,1)`, and only to cells whose
clipped window contains it. -/
theorem findCells_agrees_isInCell (w h K o : Nat) (g : SuperCell)
    (_hg : SuperCell.construct w h K o = some g) (ex ey cx cy : Nat) :
    ((cx, cy) ∈ g.findCells ex ey ↔
      cx < g.wcell ∧ cy < g.hcell ∧ g.isInCell cx cy ex ey = true) ∧
    SuperCell.construct 10 10 4 2 = some grid1010 ∧
    (0, 0) ∈ grid1010.findCells 3 3 ∧
    (1, 1) ∈ grid1010.findCells 3 3 ∧
    (∀ c ∈ grid1010.findCells 3 3, grid1010.isInCell c.1 c.2 3 3 = true) :=
  ⟨mem_findCells_iff g ex ey cx cy, by decide, by decide, by decide, by decide⟩

/-- Witness for C3 at the concrete configuration, cell `(3, 0)` against
point `(9, 0)`. -/
theorem findCells_agrees_isInCell_witness :
    SuperCell.construct 10 10 4 2 = some grid1010 ∧
    (((3, 0) ∈ grid1010.findCells 9 0 ↔
        3 < grid1010.wcell ∧ 0 < grid1010.hcell ∧
          grid1010.isInCell 3 0 9 0 = true) ∧
      SuperCell.construct 10 10 4 2 = some grid1010 ∧
      (0, 0) ∈ grid1010.findCells 3 3 ∧
      (1, 1) ∈ grid1010.findCells 3 3 ∧
      (∀ c ∈ grid1010.findCells 3 3, grid1010.isInCell c.1 c.2 3 3 = true)) :=
  ⟨by decide,
    findCells_agrees_isInCell 10 10 4 2 grid1010 (by decide) 9 0 3 0⟩

/-- C4: for every constructed grid with stride `K - overlap`, `isInCell`
holds exactly when the point lies in the half-open window
`[cx*stride, cx*stride + K) × [cy*stride, cy*stride + K)` intersected with
`[0, width) × [0, height)` (the lower bound 0 is implicit in the unsigned
coordinates). -/
theorem isInCell_window (w h K o : Nat) (g : SuperCell)
    (hg : SuperCell.construct w h K o = some g) (cx cy ex ey : Nat) :
    g.isInCell cx cy ex ey = true ↔
      cx * (K - o) ≤ ex ∧ ex < cx * (K - o) + K ∧ ex < w ∧
        cy * (K - o) ≤ ey ∧ ey < cy * (K - o) + K ∧ ey < h := by
  obtain ⟨-, -, -, -, hW, hH, hKf, hOf, -, -⟩ := construct_fields hg
  rw [isInCell_iff]
  simp only [SuperCell.stride, hW, hH, hKf, hOf]

/-- Witness for C4 at the concrete configuration, cell `(1, 1)` against
point `(3, 3)`. -/
theorem isInCell_window_witness :
    SuperCell.construct 10 10 4 2 = some grid1010 ∧
    (grid1010.isInCell 1 1 3 3 = true ↔
      1 * (4 - 2) ≤ 3 ∧ 3 < 1 * (4 - 2) + 4 ∧ 3 < 10 ∧
        1 * (4 - 2) ≤ 3 ∧ 3 < 1 * (4 - 2) + 4 ∧ 3 < 10) :=
  ⟨by decide, isInCell_window 10 10 4 2 grid1010 (by decide) 1 1 3 3⟩

/-- C7: construction of the cell grid (`SuperCell`, and hence
`SuperCellAverage`) fails exactly when `K = 0`, `overlap ≥ K`, `width = 0`
or `height = 0`; all other parameter combinations succeed. -/
theorem construct_refusal (w h K o : Nat) :
    (SuperCell.construct w h K o = none ↔
        K = 0 ∨ K ≤ o ∨ w = 0 ∨ h = 0) ∧
    (SuperCellAverage.construct w h K o = none ↔
        K = 0 ∨ K ≤ o ∨ w = 0 ∨ h = 0) := by
  have hbase : SuperCell.construct w h K o = none ↔
      K = 0 ∨ K ≤ o ∨ w = 0 ∨ h = 0 := by
    unfold SuperCell.construct
    split
    · next hcond => simpa using hcond
    · next hcond => simpa using hcond
  refine ⟨hbase, ?_⟩
  unfold SuperCellAverage.construct
  rw [Option.map_eq_none']
  exact hbase

/-- C5: for every grid constructed with `overlap = 0`, `findCells` returns
exactly one cell for every in-range point, namely `(ex / K, ey / K)`: the
cells tile the plane with no gaps and no double coverage. -/
theorem findCells_overlap_zero (w h K : Nat) (g : SuperCell)
    (hg : SuperCell.construct w h K 0 = some g) (ex ey : Nat)
    (hex : ex < w) (hey : ey < h) :
    g.findCells ex ey = [(ex / K, ey / K)] ∧
      (g.findCells ex ey).length = 1 := by
  obtain ⟨hK, -, hw, hh, hW, hH, hKf, hOf, hwc, hhc⟩ := construct_fields hg
  have hmem : (ex / K, ey / K) ∈ g.findCells ex ey := by
    rw [mem_findCells_iff, isInCell_iff]
    simp only [SuperCell.stride, hW, hH, hKf, hOf, hwc, hhc, Nat.sub_zero]
    exact ⟨div_lt_cellCount hK hw hex, div_lt_cellCount hK hh hey,
      Nat.div_mul_le_self ex K, Nat.lt_div_mul_add hK, hex,
      Nat.div_mul_le_self ey K, Nat.lt_div_mul_add hK, hey⟩
  have huniq : ∀ b ∈ g.findCells ex ey, b = (ex / K, ey / K) := by
    rintro ⟨cx, cy⟩ hb
    rw [mem_findCells_iff, isInCell_iff] at hb
    simp only [SuperCell.stride, hKf, hOf, Nat.sub_zero] at hb
    obtain ⟨-, -, h1, h2, -, h3, h4, -⟩ := hb
    have e1 : ex / K = cx :=
      Nat.div_eq_of_lt_le h1 (by rw [Nat.add_mul, Nat.one_mul]; exact h2)
    have e2 : ey / K = cy :=
      Nat.div_eq_of_lt_le h3 (by rw [Nat.add_mul, Nat.one_mul]; exact h4)
    rw [e1, e2]
  have heq := nodup_eq_singleton hmem huniq (findCells_nodup g ex ey)
  exact ⟨heq, by rw [heq]; rfl⟩

/-- Witness for C5 at `width=10, height=10, K=4, overlap=0`, point
`(5, 7)`. -/
theorem findCells_overlap_zero_witness :
    SuperCell.construct 10 10 4 0 = some grid1040 ∧ (5 < 10 ∧ 7 < 10) ∧
    (grid1040.findCells 5 7 = [(5 / 4, 7 / 4)] ∧
      (grid1040.findCells 5 7).length = 1) :=
  ⟨by decide, by decide,
    findCells_overlap_zero 10 10 4 grid1040 (by decide) 5 7
      (by decide) (by decide)⟩

/-- C6: `averageTS` mutates only the targeted accumulator: the whole
geometry record (all of `width`, `height`, `K`, `o`, `wcell`, `hcell`,
`wmax`, `hmax`) and every other cell's accumulator are unchanged. -/
theorem averageTS_frame (a : SuperCellAverage) (v : TimeSurfaceType)
    (cx cy cx' cy' : Nat) (hne : (cx', cy') ≠ (cx, cy)) :
    (a.averageTS v cx cy).2.geom = a.geom ∧
      (a.averageTS v cx cy).2.cells cx' cy' = a.cells cx' cy' := by
  refine ⟨rfl, ?_⟩
  have hne' : ¬(cx' = cx ∧ cy' = cy) := by
    rintro ⟨rfl, rfl⟩
    exact hne rfl
  simp [SuperCellAverage.averageTS, hne']

/-- Witness for C6: updating cell `(0, 0)` of the fresh averaging grid
leaves cell `(1, 1)` and the geometry unchanged. -/
theorem averageTS_frame_witness :
    ((1, 1) : Nat × Nat) ≠ (0, 0) ∧
    ((avgGrid.averageTS (fun _ _ => 1) 0 0).2.geom = avgGrid.geom ∧
      (avgGrid.averageTS (fun _ _ => 1) 0 0).2.cells 1 1 = avgGrid.cells 1 1) :=
  ⟨by decide, averageTS_frame avgGrid (fun _ _ => 1) 0 0 1 1 (by decide)⟩

/-- C2: on a freshly constructed averaging grid, the targeted cell starts
with `count = 0`; the first `averageTS` call returns the contributed
surface unchanged; every call returns the post-update running mean stored
at the cell; and after feeding `v_1 .. v_n` (here `vs ++ [v]`, `n = |vs|+1`)
the value returned by the n-th call is `(v_1 + ... + v_n) / n`
element-wise, exactly, under exact arithmetic. -/
theorem averageTS_running_mean (w h K o : Nat) (a : SuperCellAverage)
    (ha : SuperCellAverage.construct w h K o = some a) (cx cy : Nat)
    (vs : List TimeSurfaceType) (v : TimeSurfaceType) (i j : Nat) :
    (a.cells cx cy).count = 0 ∧
    (a.averageTS v cx cy).1 = v ∧
    (∀ (st : SuperCellAverage) (u : TimeSurfaceType),
        (st.averageTS u cx cy).1 = ((st.averageTS u cx cy).2.cells cx cy).ts) ∧
    ((runAverage a cx cy vs).averageTS v cx cy).1 i j
        = ((vs ++ [v]).map fun u => u i j).sum / ((vs.length : ℚ) + 1) ∧
    ((runAverage a cx cy (vs ++ [v])).cells cx cy).count = vs.length + 1 := by
  obtain ⟨-, hcells⟩ := constructAvg_fields ha
  have hcc : a.cells cx cy = CellMem.init := by rw [hcells]
  have hpair := feedCell_eval (vs ++ [v]) CellMem.init i j
  have hinit : CellMem.init.count = 0 := rfl
  rw [hinit] at hpair
  have hne : ((vs ++ [v]).map fun u => u i j) ≠ [] := by simp
  rw [feedQ_zero _ _ hne] at hpair
  have hmain := congrArg Prod.fst hpair
  have hcount := congrArg Prod.snd hpair
  simp only at hmain hcount
  refine ⟨by rw [hcc]; rfl, ?_,
    fun st u => averageTS_returns_cell st u cx cy, ?_, ?_⟩
  · show (averageStep (a.cells cx cy) v).ts = v
    rw [hcc]
    rfl
  · rw [averageTS_returns_cell, ← runAverage_append, runAverage_cells_self,
      hcc, hmain]
    congr 1
    push_cast [List.length_map, List.length_append, List.length_singleton]
    ring
  · rw [runAverage_cells_self, hcc, hcount]
    simp

/-- Witness for C2 on the concrete averaging grid: cell `(0, 0)` fed the
constant surfaces 2 then 4. -/
theorem averageTS_running_mean_witness :
    SuperCellAverage.construct 10 10 4 2 = some avgGrid ∧
    ((avgGrid.cells 0 0).count = 0 ∧
      (avgGrid.averageTS (fun _ _ => 4) 0 0).1 = (fun _ _ => (4 : ℚ)) ∧
      (∀ (st : SuperCellAverage) (u : TimeSurfaceType),
          (st.averageTS u 0 0).1 = ((st.averageTS u 0 0).2.cells 0 0).ts) ∧
      ((runAverage avgGrid 0 0 [fun _ _ => 2]).averageTS (fun _ _ => 4) 0 0).1
            0 0
          = ((([fun _ _ => 2] : List TimeSurfaceType)
                ++ ([fun _ _ => 4] : List TimeSurfaceType)).map
                fun u => u 0 0).sum
              / ((([fun _ _ => 2] : List TimeSurfaceType).length : ℚ) + 1) ∧
      ((runAverage avgGrid 0 0
            (([fun _ _ => 2] : List TimeSurfaceType)
              ++ ([fun _ _ => 4] : List TimeSurfaceType))).cells
            0 0).count
        = ([fun _ _ => 2] : List TimeSurfaceType).length + 1) :=
  ⟨rfl,
    averageTS_running_mean 10 10 4 2 avgGrid rfl 0 0
      ([fun _ _ => 2] : List TimeSurfaceType) (fun _ _ => 4) 0 0⟩

/-- C8: for every `SerializingLayer` constructed with `width = W > 0` and
`height = H > 0`, `remapEvent` of `{t, x, y, p}` with cluster id `k` is
`{t, W*H*k + W*y + x, 0, 0}`; in particular with `W = H = 5`, the event
`{t=100, x=2, y=3, p=0}` with `k = 4` remaps to `{100, 117, 0, 0}`. -/
theorem remapEvent_serializes (W H : Nat) (l : SerializingLayer)
    (hl : SerializingLayer.construct W H = some l) (ev : event) (k : Nat) :
    l.remapEvent ev k
        = { t := ev.t, x := W * H * k + W * ev.y + ev.x, y := 0, p := 0 } ∧
    SerializingLayer.construct 5 5 = some { w := 5, h := 5 } ∧
    SerializingLayer.remapEvent { w := 5, h := 5 }
        { t := 100, x := 2, y := 3, p := 0 } 4
      = { t := 100, x := 117, y := 0, p := 0 } := by
  have hw : l.w = W ∧ l.h = H := by
    unfold SerializingLayer.construct at hl
    split at hl
    · exact absurd hl (by simp)
    · injection hl with h1
      rw [← h1]
      exact ⟨rfl, rfl⟩
  refine ⟨?_, by decide, by decide⟩
  simp only [SerializingLayer.remapEvent, hw.1, hw.2]

/-- Witness for C8 at `W = H = 5`, the spec's concrete event. -/
theorem remapEvent_serializes_witness :
    SerializingLayer.construct 5 5 = some { w := 5, h := 5 } ∧
    (SerializingLayer.remapEvent { w := 5, h := 5 }
          { t := 100, x := 2, y := 3, p := 0 } 4
        = { t := 100, x := 5 * 5 * 4 + 5 * 3 + 2, y := 0, p := 0 } ∧
      SerializingLayer.construct 5 5 = some { w := 5, h := 5 } ∧
      SerializingLayer.remapEvent { w := 5, h := 5 }
          { t := 100, x := 2, y := 3, p := 0 } 4
        = { t := 100, x := 117, y := 0, p := 0 }) :=
  ⟨by decide,
    remapEvent_serializes 5 5 { w := 5, h := 5 } (by decide)
      { t := 100, x := 2, y := 3, p := 0 } 4⟩

/-- C9: the coordinate `W*H*k + W*y + x` computed by `remapEvent` of a
constructed `SerializingLayer` is injective on the valid domain
`x < W`, `y < H` (the modelled encoding carries no fixed-width wrap-around:
the field widths are not part of the sources, and the spec calls the
encoding bijective). -/
theorem remapEvent_injective (W H : Nat) (l : SerializingLayer)
    (hl : SerializingLayer.construct W H = some l)
    (t p t' p' x y k x' y' k' : Nat) (hx : x < W) (hy : y < H)
    (hx' : x' < W) (hy' : y' < H)
    (heq : (l.remapEvent { t := t, x := x, y := y, p := p } k).x
         = (l.remapEvent { t := t', x := x', y := y', p := p' } k').x) :
    x = x' ∧ y = y' ∧ k = k' := by
  have hWH : l.w = W ∧ l.h = H ∧ 0 < W ∧ 0 < H := by
    unfold SerializingLayer.construct at hl
    split at hl
    · exact absurd hl (by simp)
    · next hcond =>
      push_neg at hcond
      injection hl with h1
      rw [← h1]
      exact ⟨rfl, rfl, Nat.pos_of_ne_zero hcond.1,
        Nat.pos_of_ne_zero hcond.2⟩
  obtain ⟨hw, hh, hWpos, hHpos⟩ := hWH
  simp only [SerializingLayer.remapEvent, hw, hh] at heq
  have e1 : W * (H * k + y) + x = W * (H * k' + y') + x' := by
    have r1 : W * (H * k + y) + x = W * H * k + W * y + x := by ring
    have r2 : W * (H * k' + y') + x' = W * H * k' + W * y' + x' := by ring
    rw [r1, r2]
    exact heq
  have hx1 : x = x' := by
    have hm : (W * (H * k + y) + x) % W = (W * (H * k' + y') + x') % W := by
      rw [e1]
    rwa [Nat.mul_add_mod, Nat.mul_add_mod, Nat.mod_eq_of_lt hx,
      Nat.mod_eq_of_lt hx'] at hm
  have hd : H * k + y = H * k' + y' := by
    have hm : (W * (H * k + y) + x) / W = (W * (H * k' + y') + x') / W := by
      rw [e1]
    rwa [Nat.mul_add_div hWpos, Nat.mul_add_div hWpos, Nat.div_eq_of_lt hx,
      Nat.div_eq_of_lt hx', Nat.add_zero, Nat.add_zero] at hm
  have hy1 : y = y' := by
    have hm : (H * k + y) % H = (H * k' + y') % H := by rw [hd]
    rwa [Nat.mul_add_mod, Nat.mul_add_mod, Nat.mod_eq_of_lt hy,
      Nat.mod_eq_of_lt hy'] at hm
  have hk1 : k = k' := by
    have hm : (H * k + y) / H = (H * k' + y') / H := by rw [hd]
    rwa [Nat.mul_add_div hHpos, Nat.mul_add_div hHpos, Nat.div_eq_of_lt hy,
      Nat.div_eq_of_lt hy', Nat.add_zero, Nat.add_zero] at hm
  exact ⟨hx1, hy1, hk1⟩

/-- Witness for C9 at `W = H = 5`, comparing the encoding of `(2, 3, 4)`
with itself. -/
theorem remapEvent_injective_witness :
    SerializingLayer.construct 5 5 = some { w := 5, h := 5 } ∧
    (2 < 5 ∧ 3 < 5) ∧
    ((2 : Nat) = 2 ∧ (3 : Nat) = 3 ∧ (4 : Nat) = 4) :=
  ⟨by decide, by decide,
    remapEvent_injective 5 5 { w := 5, h := 5 } (by decide)
      100 0 7 1 2 3 4 2 3 4 (by decide) (by decide) (by decide) (by decide)
      (by decide)⟩

/-- C10: the driver `process` resets the processor exactly once, before any
event (the call trace is `reset` followed by one `process` call per input
event, in order); with no events it emits nothing; its output is the
concatenation, in input order, of the per-event emissions starting from the
reset state; and two starting states with the same post-reset state give
identical results. -/
theorem process_driver_spec {S Ev : Type} (reset : S → S)
    (step : S → Ev → Bool → S × List Ev) (s s' : S) (events : List Ev)
    (skip : Bool) (hreset : reset s = reset s') :
    (processTraced reset step s events skip).2
        = PCall.reset :: events.map (fun ev => PCall.processEvent ev skip) ∧
    (processTraced reset step s events skip).1
        = process reset step s events skip ∧
    (process reset step s [] skip).2 = [] ∧
    (process reset step s events skip).2
        = emitted step skip (reset s) events ∧
    process reset step s events skip = process reset step s' events skip := by
  refine ⟨?_, ?_, rfl, ?_, ?_⟩
  · have h := processTraced_foldl_trace step skip events
      ((reset s, []), [PCall.reset])
    simp only [processTraced]
    rw [h]
    simp
  · exact processTraced_foldl_fst step skip events (reset s, []) [PCall.reset]
  · have h := process_foldl_out step skip events (reset s) []
    simp only [process]
    rw [h]
    simp
  · simp only [process, hreset]

/-- Witness for C10 on a concrete accumulator processor over two events. -/
theorem process_driver_spec_witness :
    ((fun (_ : Nat) => (0 : Nat)) 5 = (fun (_ : Nat) => (0 : Nat)) 7) ∧
    ((processTraced (fun _ => 0) (fun st e _ => (st + e, [st + e])) 5 [1, 2]
            false).2
        = PCall.reset
            :: [1, 2].map (fun ev => PCall.processEvent ev false) ∧
      (processTraced (fun _ => 0) (fun st e _ => (st + e, [st + e])) 5 [1, 2]
            false).1
        = process (fun _ => 0) (fun st e _ => (st + e, [st + e])) 5 [1, 2]
            false ∧
      (process (fun _ => 0) (fun st e _ => (st + e, [st + e])) 5 [] false).2
        = [] ∧
      (process (fun _ => 0) (fun st e _ => (st + e, [st + e])) 5 [1, 2]
            false).2
        = emitted (fun st e _ => (st + e, [st + e])) false
            ((fun (_ : Nat) => (0 : Nat)) 5) [1, 2] ∧
      process (fun _ => 0) (fun st e _ => (st + e, [st + e])) 5 [1, 2] false
        = process (fun _ => 0) (fun st e _ => (st + e, [st + e])) 7 [1, 2]
            false) :=
  ⟨rfl,
    process_driver_spec (fun _ => 0) (fun st e _ => (st + e, [st + e])) 5 7
      [1, 2] false rfl⟩

end Cpphots
